import Mathlib

/-!
Verification of the MultiAgent_Chatbot backend (`backend/main.py`,
`backend/database.py`) against its natural-language specification.

The backend is shallowly embedded: the four SQLModel tables become Lean
structures, the database becomes a `DB` record of lists (rows in insertion
order), timestamps become naturals (successive `datetime.utcnow()` readings
are passed in as explicit parameters), and every mutating endpoint becomes a
pure function `DB → args → DB × Except HErr response` returning the persisted
store together with the HTTP outcome.  The external CrewAI/LiteLLM inference
service is abstracted as an oracle `infer : List String → Task → Option String`
(prior stage outputs, stage task ↦ stage output, `none` = upstream failure);
`Crew(..., process=Process.sequential).kickoff()` is embedded as a sequential
fold over the declared task list.
-/

namespace MAC

/-- Row of table `user` (database.py, class `User`). -/
structure User where
  id : Nat
  username : String
  email : String
  hashed_password : String
  created_at : Nat
deriving DecidableEq, Repr

/-- Row of table `chatsession` (database.py, class `ChatSession`). -/
structure ChatSession where
  id : Nat
  user_id : Nat
  title : String
  created_at : Nat
deriving DecidableEq, Repr

/-- Row of table `chatmessage` (database.py, class `ChatMessage`). -/
structure ChatMessage where
  id : Nat
  session_id : Nat
  role : String
  content : String
  timestamp : Nat
deriving DecidableEq, Repr

/-- Row of table `userfiles` (database.py, class `UserFiles`). -/
structure UserFiles where
  id : Nat
  user_id : Nat
  file_name : String
  content : String
  uploaded_at : Nat
deriving DecidableEq, Repr

/-- The relational store: the four tables, rows in insertion order. -/
structure DB where
  users : List User
  sessions : List ChatSession
  messages : List ChatMessage
  files : List UserFiles
deriving DecidableEq, Repr

/-- The store just after `create_db_and_tables()`: four empty tables. -/
def emptyDB : DB := ⟨[], [], [], []⟩

/-- An HTTP error outcome (`HTTPException(status_code, detail)`). -/
structure HErr where
  status : Nat
  detail : String
deriving DecidableEq, Repr

/-- Fresh primary key for a new row: one more than the largest key in use
(SQLite rowid assignment; keys therefore start at 1). -/
def freshId (ids : List Nat) : Nat := ids.foldr max 0 + 1

/-- Python truthiness of an `Optional[int]`: `None` and `0` are falsy. -/
def pyTruthy : Option Nat → Bool
  | none => false
  | some n => n != 0

/-- The characters stripped by Python `str.strip()` (ASCII fragment). -/
def isPythonSpace (c : Char) : Bool :=
  c = ' ' || c = '\t' || c = '\n' || c = '\r' || c = '\x0b' || c = '\x0c'

/-- Python `str.strip()`. -/
def pyStrip (s : String) : String :=
  ⟨((s.data.dropWhile isPythonSpace).reverse.dropWhile isPythonSpace).reverse⟩

/-- Python `str.lower()` (ASCII fragment, as exercised by the keyword set). -/
def pyLower (s : String) : String := ⟨s.data.map Char.toLower⟩

/-- Substring occurrence on character lists (Python `needle in hay`). -/
def listContainsSub (hay needle : List Char) : Bool :=
  needle.isPrefixOf hay ||
    match hay with
    | [] => false
    | _ :: t => listContainsSub t needle

/-- Python `needle in hay` for strings. -/
def pyContains (hay needle : String) : Bool := listContainsSub hay.data needle.data

/-- Python slicing `s[:n]` (by code point). -/
def pyTake (s : String) (n : Nat) : String := ⟨s.data.take n⟩

/-- Python `s.endswith(suffix)`. -/
def pyEndsWith (s suffix : String) : Bool := suffix.data.isSuffixOf s.data

/-- main.py `authenticate_user`: first user whose `username` matches, accepted
only when the stored `hashed_password` equals the claimed password (exact
string comparison, no hashing).  Pure: no side effects. -/
def authenticate_user (db : DB) (username password : String) : Option User :=
  match db.users.find? (fun u => u.username == username) with
  | none => none
  | some u => if u.hashed_password != password then none else some u

/-- main.py `is_file_relevant`: the query is file-related iff its lowercase
form contains one of the fixed keywords. -/
def file_keywords : List String :=
  ["file", "document", "content", "uploaded", "pdf", "txt", "summarize", "describe"]

def is_file_relevant (query : String) : Bool :=
  file_keywords.any (fun keyword => pyContains (pyLower query) keyword)

/-- Response body of `POST /register`. -/
structure UserRead where
  username : String
  email : String
deriving DecidableEq, Repr

/-- main.py `register` (`POST /register`): 400 when the username is already
taken (case-sensitive equality), otherwise insert and commit the new user. -/
def register (db : DB) (username email password : String) (now : Nat) :
    DB × Except HErr UserRead :=
  match db.users.find? (fun u => u.username == username) with
  | some _ => (db, .error ⟨400, "Username already registered"⟩)
  | none =>
    let db_user : User :=
      ⟨freshId (db.users.map (·.id)), username, email, password, now⟩
    ({db with users := db.users ++ [db_user]}, .ok ⟨username, email⟩)

/-- Response body of `POST /upload_file`. -/
structure UploadResponse where
  message : String
  username : String
  filename : String
  upload_time : Nat
deriving DecidableEq, Repr

/-- main.py `extract_file_content`.  Decoding the uploaded bytes is abstracted:
`decoded` is the UTF-8 decoding of the file body (the `.txt` branch) and
`pdfText` is the page text PyPDF2 would extract (the `.pdf` branch, which the
source strips). Any other extension raises 400. -/
def extract_file_content (filename decoded pdfText : String) : Except HErr String :=
  if pyEndsWith filename ".txt" then .ok decoded
  else if pyEndsWith filename ".pdf" then .ok (pyStrip pdfText)
  else .error ⟨400, "Unsupported file format. Please upload .txt or .pdf files."⟩

/-- main.py `upload_file` (`POST /upload_file`): authenticate, extract the
text, reject when the stripped content is empty, otherwise insert and commit a
`UserFiles` row stamped with the current time. -/
def upload_file (db : DB) (username password filename decoded pdfText : String)
    (now : Nat) : DB × Except HErr UploadResponse :=
  match authenticate_user db username password with
  | none => (db, .error ⟨401, "Invalid credentials"⟩)
  | some user =>
    match extract_file_content filename decoded pdfText with
    | .error e => (db, .error e)
    | .ok file_content =>
      if pyStrip file_content = "" then
        (db, .error ⟨400, "File content is empty"⟩)
      else
        let user_file : UserFiles :=
          ⟨freshId (db.files.map (·.id)), user.id, filename, file_content, now⟩
        ({db with files := db.files ++ [user_file]},
         .ok ⟨"File uploaded successfully", username, filename, now⟩)

/-- Stable insertion (new element goes after existing ones with an equal or
smaller timestamp): building block of `ORDER BY timestamp` ascending. -/
def insertByTs (m : ChatMessage) : List ChatMessage → List ChatMessage
  | [] => [m]
  | x :: xs => if x.timestamp ≤ m.timestamp then x :: insertByTs m xs else m :: x :: xs

/-- Embeds `ORDER BY timestamp` ascending, stable on ties (insertion order
kept). -/
def sortByTs (l : List ChatMessage) : List ChatMessage :=
  l.foldl (fun acc m => insertByTs m acc) []

/-- Stable insertion for `ORDER BY uploaded_at DESC` (newest first; among equal
times the earlier-inserted row stays first). -/
def insertByUp (f : UserFiles) : List UserFiles → List UserFiles
  | [] => [f]
  | x :: xs => if f.uploaded_at ≤ x.uploaded_at then x :: insertByUp f xs else f :: x :: xs

/-- Embeds `ORDER BY uploaded_at DESC`, stable on ties. -/
def sortByUpDesc (l : List UserFiles) : List UserFiles :=
  l.foldl (fun acc f => insertByUp f acc) []

/-- Chat-history assembly (main.py `chat`, lines 158–164): the session's
messages ordered by timestamp rendered as "role: content" lines, or the
sentinel when the session has no messages yet. -/
def buildHistoryStr (db : DB) (sid : Nat) : String :=
  let msgs := sortByTs (db.messages.filter (fun m => m.session_id == sid))
  if msgs.isEmpty then "No previous conversation."
  else String.intercalate "\n" (msgs.map (fun m => m.role ++ ": " ++ m.content))

/-- The user's most recently uploaded file, if any (main.py `chat`,
lines 166–170): `ORDER BY uploaded_at DESC` then `.first()`. -/
def latestFile (db : DB) (uid : Nat) : Option UserFiles :=
  (sortByUpDesc (db.files.filter (fun f => f.user_id == uid))).head?

/-- File-context assembly (main.py `chat`, lines 166–172): the latest file's
content when the query is file-relevant and that content is non-empty,
otherwise the sentinel string. -/
def assembleFileContext (db : DB) (uid : Nat) (query : String) : String :=
  let file_content :=
    match latestFile db uid with
    | some f => if is_file_relevant query then f.content else ""
    | none => ""
  if file_content == "" then "No relevant file content available." else file_content

/-- A CrewAI agent declaration (llm, role, goal, backstory). -/
structure Agent where
  llm : String
  role : String
  goal : String
  backstory : String
deriving DecidableEq, Repr

/-- A CrewAI task declaration (rendered description, agent, expected output). -/
structure Task where
  description : String
  agent : Agent
  expected_output : String
deriving DecidableEq, Repr

/-- main.py, reason mode, first agent. -/
def conceptual_analyst : Agent :=
  ⟨"groq/gemma2-9b-it", "Conceptual Analyst",
   "Analyze the query theoretically, using file content only if relevant.",
   "Expert in breaking down complex queries into core concepts."⟩

/-- main.py, reason mode, second agent. -/
def practical_synthesizer : Agent :=
  ⟨"groq/mixtral-8x7b-32768", "Practical Synthesizer",
   "Provide practical insights based on the query, using file content only if relevant.",
   "Skilled at applying theory to real-world scenarios."⟩

/-- main.py, reason mode, third agent. -/
def solution_architect : Agent :=
  ⟨"groq/deepseek-r1-distill-llama-70b", "Solution Architect",
   "Synthesize a comprehensive response, using file content only if relevant.",
   "Expert in crafting polished responses."⟩

/-- main.py, default mode, sole agent. -/
def expert_assistant : Agent :=
  ⟨"groq/gemma2-9b-it", "Expert Assistant",
   "Provide a helpful and accurate response, using file content only if relevant.",
   "MultiAgentChatbot, a friendly AI assistant."⟩

/-- The shared context block rendered into every stage description. -/
def contextBlock (current_time chat_history_str file_context : String) : String :=
  "- Time: " ++ current_time ++ "\n- History: " ++ chat_history_str ++
    "\n- File content: " ++ file_context

/-- The three reason-mode tasks, in declaration order. -/
def reasonTasks (query current_time chat_history_str file_context : String) :
    List Task :=
  [⟨"Analyze \x27" ++ query ++ "\x27 theoretically with context:\n" ++
      contextBlock current_time chat_history_str file_context ++
      "\nInstructions:\n" ++
      "1. If file content is provided and relevant to the query (e.g., query asks about the file), use it as the primary source.\n" ++
      "2. Otherwise, base your analysis on the query and chat history alone.\n" ++
      "3. Provide a structured theoretical analysis.",
    conceptual_analyst, "Theoretical analysis of the query."⟩,
   ⟨"Provide practical insights for \x27" ++ query ++ "\x27 with context:\n" ++
      contextBlock current_time chat_history_str file_context ++
      "\nInstructions:\n" ++
      "1. If file content is provided and relevant, use it to inform your insights.\n" ++
      "2. Otherwise, focus on the query and chat history.\n" ++
      "3. Include actionable steps or recommendations.",
    practical_synthesizer, "Practical insights based on the query."⟩,
   ⟨"Synthesize a response for \x27" ++ query ++ "\x27 with context:\n" ++
      contextBlock current_time chat_history_str file_context ++
      "\nInstructions:\n" ++
      "1. Integrate analysis and insights, using file content only if relevant.\n" ++
      "2. Structure the response to be clear and actionable.",
    solution_architect, "Comprehensive response."⟩]

/-- The single default-mode task. -/
def defaultTask (query current_time chat_history_str file_context : String) : Task :=
  ⟨"Answer the query: \x27" ++ query ++ "\x27\nContext:\n- Current time: " ++
     current_time ++ "\n- Chat history: " ++ chat_history_str ++
     "\n- File content: " ++ file_context ++ "\nInstructions:\n" ++
     "1. If file content is provided and the query explicitly relates to it (e.g., \x27summarize the file\x27), use it as the primary source.\n" ++
     "2. Otherwise, respond based on the query and chat history alone.\n" ++
     "3. Provide a clear and helpful response.",
   expert_assistant, "A clear, helpful response."⟩

/-- The task list the chat endpoint hands to the crew: three tasks when
`mode == "reason"`, otherwise the single expert-assistant task. -/
def buildCrewTasks (mode query current_time chat_history_str file_context : String) :
    List Task :=
  if mode == "reason" then reasonTasks query current_time chat_history_str file_context
  else [defaultTask query current_time chat_history_str file_context]

/-- Sequential crew execution: stages run strictly in declared order, each
stage's inference seeing the outputs of the earlier stages; a stage failure
(`none` from the oracle) aborts the whole pipeline.  Returns the ordered
(role, output) trace. -/
def runSeq (infer : List String → Task → Option String) (acc : List String) :
    List Task → Option (List (String × String))
  | [] => some []
  | t :: ts =>
    match infer acc t with
    | none => none
    | some out =>
      match runSeq infer (acc ++ [out]) ts with
      | none => none
      | some rest => some ((t.agent.role, out) :: rest)

/-- Embeds `crew.kickoff()` under `Process.sequential`. -/
def crewKickoff (infer : List String → Task → Option String) (tasks : List Task) :
    Option (List (String × String)) :=
  runSeq infer [] tasks

/-- Response body of `POST /chat`. -/
structure ChatResult where
  response : String
  session_id : Nat
  messages : List (String × String)
deriving DecidableEq, Repr

/-- Session resolution in main.py `chat` (lines 147–156).  Python truthiness:
`if session_id:` takes the lookup branch only for a non-`None`, non-zero id;
the lookup 404s when the session is missing or owned by another user; the
create branch inserts and commits a fresh session titled with the first 50
characters of the query, before any inference runs. -/
def resolveSession (db : DB) (user : User) (session_id : Option Nat)
    (query : String) (tSession : Nat) : Except HErr (DB × Nat) :=
  if pyTruthy session_id then
    match db.sessions.find? (fun s => s.id == session_id.getD 0) with
    | none => .error ⟨404, "Session not found"⟩
    | some s =>
      if s.user_id != user.id then .error ⟨404, "Session not found"⟩
      else .ok (db, s.id)
  else
    let s : ChatSession :=
      ⟨freshId (db.sessions.map (·.id)), user.id, pyTake query 50, tSession⟩
    .ok ({db with sessions := db.sessions ++ [s]}, s.id)

/-- main.py `chat` (`POST /chat`).  The four successive `datetime.utcnow()`
readings are the parameters `tSession` (session creation), `tNow` (prompt
timestamp), `tUser` and `tAi` (the two turn timestamps); `infer` is the
external inference service.  Returns the persisted store paired with the
HTTP outcome; an uncaught pipeline failure surfaces as a 500 with the
already-committed store unchanged since the last commit. -/
def chat (db : DB) (message : String) (session_id : Option Nat)
    (mode username password : String) (tSession tNow tUser tAi : Nat)
    (infer : List String → Task → Option String) :
    DB × Except HErr ChatResult :=
  match authenticate_user db username password with
  | none => (db, .error ⟨401, "Invalid credentials"⟩)
  | some user =>
    match resolveSession db user session_id message tSession with
    | .error e => (db, .error e)
    | .ok (db1, sid) =>
      let chat_history_str := buildHistoryStr db1 sid
      let file_context := assembleFileContext db1 user.id message
      let tasks := buildCrewTasks mode message (toString tNow) chat_history_str file_context
      match crewKickoff infer tasks with
      | none => (db1, .error ⟨500, "Internal Server Error"⟩)
      | some outs =>
        let response := (outs.map (·.2)).getLastD ""
        let user_msg : ChatMessage :=
          ⟨freshId (db1.messages.map (·.id)), sid, "user", message, tUser⟩
        let ai_msg : ChatMessage :=
          ⟨freshId (db1.messages.map (·.id) ++ [user_msg.id]), sid, "assistant",
           response, tAi⟩
        ({db1 with messages := db1.messages ++ [user_msg, ai_msg]},
         .ok ⟨response, sid, [("user", message), ("assistant", response)]⟩)

/-- main.py `get_session_messages` (`GET /session/{session_id}`): 401 on bad
credentials; 404 when the session is missing or owned by another account;
otherwise the session's messages ordered by timestamp.  Read-only. -/
def get_session_messages (db : DB) (session_id : Nat) (username password : String) :
    Except HErr (List (String × String × Nat)) :=
  match authenticate_user db username password with
  | none => .error ⟨401, "Invalid credentials"⟩
  | some user =>
    match db.sessions.find? (fun s => s.id == session_id) with
    | none => .error ⟨404, "Session not found"⟩
    | some s =>
      if s.user_id != user.id then .error ⟨404, "Session not found"⟩
      else
        .ok ((sortByTs (db.messages.filter (fun m => m.session_id == session_id))).map
          (fun m => (m.role, m.content, m.timestamp)))

/-- Store states reachable from the freshly created schema through the
mutating endpoints, with arbitrary arguments and an arbitrary inference
oracle. -/
inductive Reach : DB → Prop where
  | init : Reach emptyDB
  | register (db : DB) (username email password : String) (now : Nat) :
      Reach db → Reach (register db username email password now).1
  | upload (db : DB) (username password filename decoded pdfText : String)
      (now : Nat) : Reach db →
      Reach (upload_file db username password filename decoded pdfText now).1
  | chat (db : DB) (message : String) (session_id : Option Nat)
      (mode username password : String) (tSession tNow tUser tAi : Nat)
      (infer : List String → Task → Option String) : Reach db →
      Reach (chat db message session_id mode username password tSession tNow
        tUser tAi infer).1

/-! ### Helper lemmas -/

theorem le_fold_max (ids : List Nat) (i : Nat) (h : i ∈ ids) :
    i ≤ ids.foldr max 0 := by
  induction ids with
  | nil => cases h
  | cons x xs ih =>
    rcases List.mem_cons.1 h with rfl | h
    · exact Nat.le_max_left _ _
    · exact Nat.le_trans (ih h) (Nat.le_max_right _ _)

theorem lt_freshId (ids : List Nat) (i : Nat) (h : i ∈ ids) : i < freshId ids :=
  Nat.lt_succ_of_le (le_fold_max ids i h)

theorem freshId_pos (ids : List Nat) : 0 < freshId ids := Nat.succ_pos _

theorem freshId_not_mem (ids : List Nat) : freshId ids ∉ ids := fun h =>
  Nat.lt_irrefl _ (lt_freshId ids _ h)

theorem find?_eq_some_of_nodup {α β : Type} [DecidableEq β] (key : α → β)
    (l : List α) (hnd : (l.map key).Nodup) (a : α) (ha : a ∈ l) (b : β)
    (hb : key a = b) : l.find? (fun x => key x == b) = some a := by
  induction l with
  | nil => cases ha
  | cons x xs ih =>
    rw [List.map_cons, List.nodup_cons] at hnd
    rcases List.mem_cons.1 ha with rfl | ha
    · rw [List.find?_cons_of_pos _ (by simp [hb])]
    · have hne : key x ≠ b := by
        intro hx
        apply hnd.1
        rw [hx, ← hb]
        exact List.mem_map_of_mem key ha
      rw [List.find?_cons_of_neg _ (by simp [hne])]
      exact ih hnd.2 ha

theorem pyStrip_eq_empty_iff (s : String) :
    pyStrip s = "" ↔ ∀ c ∈ s.data, isPythonSpace c := by
  unfold pyStrip
  rw [String.ext_iff]
  show ((s.data.dropWhile isPythonSpace).reverse.dropWhile isPythonSpace).reverse
      = [] ↔ _
  constructor
  · intro h c hc
    have h2 : (s.data.dropWhile isPythonSpace).reverse.dropWhile isPythonSpace = [] := by
      simpa using congrArg List.reverse h
    have h3 : ∀ x ∈ (s.data.dropWhile isPythonSpace).reverse, isPythonSpace x :=
      List.dropWhile_eq_nil_iff.1 h2
    have h4 : ∀ x ∈ s.data.dropWhile isPythonSpace, isPythonSpace x := by
      intro x hx
      exact h3 x (List.mem_reverse.2 hx)
    have h5 : ∀ x ∈ s.data, isPythonSpace x := by
      intro x hx
      rw [← List.takeWhile_append_dropWhile (p := isPythonSpace) (l := s.data)] at hx
      rcases List.mem_append.1 hx with hx | hx
      · exact List.mem_takeWhile_imp hx
      · exact h4 x hx
    exact h5 c hc
  · intro h
    have h1 : s.data.dropWhile isPythonSpace = [] :=
      List.dropWhile_eq_nil_iff.2 h
    simp [h1]

theorem mem_insertByTs (m x : ChatMessage) (l : List ChatMessage) :
    x ∈ insertByTs m l ↔ x = m ∨ x ∈ l := by
  induction l with
  | nil => simp [insertByTs]
  | cons y ys ih =>
    unfold insertByTs
    split <;> simp only [List.mem_cons, ih] <;> tauto

theorem mem_sortByTs_aux (l : List ChatMessage) (acc : List ChatMessage)
    (x : ChatMessage) :
    x ∈ l.foldl (fun acc m => insertByTs m acc) acc ↔ x ∈ acc ∨ x ∈ l := by
  induction l generalizing acc with
  | nil => simp
  | cons y ys ih =>
    simp only [List.foldl_cons, ih, mem_insertByTs, List.mem_cons]
    tauto

theorem mem_sortByTs (l : List ChatMessage) (x : ChatMessage) :
    x ∈ sortByTs l ↔ x ∈ l := by
  unfold sortByTs
  rw [mem_sortByTs_aux]
  simp

theorem mem_insertByUp (f x : UserFiles) (l : List UserFiles) :
    x ∈ insertByUp f l ↔ x = f ∨ x ∈ l := by
  induction l with
  | nil => simp [insertByUp]
  | cons y ys ih =>
    unfold insertByUp
    split <;> simp only [List.mem_cons, ih] <;> tauto

theorem mem_sortByUpDesc_aux (l acc : List UserFiles) (x : UserFiles) :
    x ∈ l.foldl (fun acc f => insertByUp f acc) acc ↔ x ∈ acc ∨ x ∈ l := by
  induction l generalizing acc with
  | nil => simp
  | cons y ys ih =>
    simp only [List.foldl_cons, ih, mem_insertByUp, List.mem_cons]
    tauto

theorem mem_sortByUpDesc (l : List UserFiles) (x : UserFiles) :
    x ∈ sortByUpDesc l ↔ x ∈ l := by
  unfold sortByUpDesc
  rw [mem_sortByUpDesc_aux]
  simp

/-- Descending order on upload times, as a pairwise relation. -/
def DescByUp (l : List UserFiles) : Prop :=
  l.Pairwise (fun a b => b.uploaded_at ≤ a.uploaded_at)

theorem descByUp_insertByUp (f : UserFiles) (l : List UserFiles)
    (h : DescByUp l) : DescByUp (insertByUp f l) := by
  induction l with
  | nil => simp [insertByUp, DescByUp]
  | cons x xs ih =>
    unfold DescByUp at h ⊢
    rw [List.pairwise_cons] at h
    unfold insertByUp
    split
    · rename_i hle
      rw [List.pairwise_cons]
      constructor
      · intro y hy
        rcases (mem_insertByUp f y xs).1 hy with rfl | hy
        · exact hle
        · exact h.1 y hy
      · exact ih h.2
    · rename_i hgt
      rw [List.pairwise_cons]
      constructor
      · intro y hy
        rcases List.mem_cons.1 hy with rfl | hy
        · exact Nat.le_of_not_le hgt
        · exact Nat.le_trans (h.1 y hy) (Nat.le_of_not_le hgt)
      · rw [List.pairwise_cons]
        exact h

theorem descByUp_sortByUpDesc_aux (l acc : List UserFiles) (hacc : DescByUp acc) :
    DescByUp (l.foldl (fun acc f => insertByUp f acc) acc) := by
  induction l generalizing acc with
  | nil => exact hacc
  | cons y ys ih =>
    exact ih _ (descByUp_insertByUp y acc hacc)

theorem descByUp_sortByUpDesc (l : List UserFiles) : DescByUp (sortByUpDesc l) :=
  descByUp_sortByUpDesc_aux l [] (List.Pairwise.nil)

theorem sortByUpDesc_length_aux (l acc : List UserFiles) :
    (l.foldl (fun acc f => insertByUp f acc) acc).length = acc.length + l.length := by
  induction l generalizing acc with
  | nil => simp
  | cons y ys ih =>
    have hlen : ∀ f (m : List UserFiles), (insertByUp f m).length = m.length + 1 := by
      intro f m
      induction m with
      | nil => rfl
      | cons z zs ihz =>
        unfold insertByUp
        split
        · simp [ihz]
        · simp
    simp only [List.foldl_cons, ih, hlen, List.length_cons]
    omega

/-- Head of the descending sort is an upload-time maximum. -/
theorem latestFile_spec (db : DB) (uid : Nat)
    (hne : db.files.filter (fun f => f.user_id == uid) ≠ []) :
    ∃ f, latestFile db uid = some f ∧ f ∈ db.files ∧ f.user_id = uid ∧
      ∀ g ∈ db.files, g.user_id = uid → g.uploaded_at ≤ f.uploaded_at := by
  set fl := db.files.filter (fun f => f.user_id == uid) with hfl
  have hlen : (sortByUpDesc fl).length = fl.length := by
    unfold sortByUpDesc
    rw [sortByUpDesc_length_aux]
    simp
  obtain ⟨f, t, hft⟩ : ∃ f t, sortByUpDesc fl = f :: t := by
    cases hsort : sortByUpDesc fl with
    | nil =>
      exfalso
      apply hne
      have : fl.length = 0 := by rw [← hlen, hsort]; rfl
      exact List.length_eq_zero.1 this
    | cons f t => exact ⟨f, t, rfl⟩
  have hmemf : f ∈ fl := (mem_sortByUpDesc fl f).1 (hft ▸ List.mem_cons_self f t)
  have hf2 := List.mem_filter.1 hmemf
  refine ⟨f, ?_, hf2.1, by simpa using hf2.2, ?_⟩
  · unfold latestFile
    rw [← hfl, hft]
    rfl
  · intro g hg hgid
    have hgmem : g ∈ fl := List.mem_filter.2 ⟨hg, by simpa using hgid⟩
    have hgsort : g ∈ f :: t := hft ▸ (mem_sortByUpDesc fl g).2 hgmem
    have hdesc : DescByUp (f :: t) := hft ▸ descByUp_sortByUpDesc fl
    rcases List.mem_cons.1 hgsort with rfl | hgt
    · exact Nat.le_refl _
    · exact (List.pairwise_cons.1 hdesc).1 g hgt

/-- A successful sequential run executes exactly the declared tasks, in
declared order: the trace's role column is the task list's role column. -/
theorem runSeq_roles (infer : List String → Task → Option String)
    (ts : List Task) (acc : List String) (outs : List (String × String))
    (h : runSeq infer acc ts = some outs) :
    outs.map (·.1) = ts.map (fun t => t.agent.role) := by
  induction ts generalizing acc outs with
  | nil =>
    unfold runSeq at h
    cases h
    rfl
  | cons t ts ih =>
    unfold runSeq at h
    cases hinf : infer acc t with
    | none => simp only [hinf] at h; cases h
    | some out =>
      simp only [hinf] at h
      cases hrest : runSeq infer (acc ++ [out]) ts with
      | none => simp only [hrest] at h; cases h
      | some rest =>
        simp only [hrest, Option.some.injEq] at h
        subst h
        simp only [List.map_cons]
        rw [ih _ _ hrest]

theorem crewKickoff_roles (infer : List String → Task → Option String)
    (ts : List Task) (outs : List (String × String))
    (h : crewKickoff infer ts = some outs) :
    outs.map (·.1) = ts.map (fun t => t.agent.role) :=
  runSeq_roles infer ts [] outs h

/-- The declared role column of the task list built per mode. -/
theorem buildCrewTasks_roles (mode query current_time chat_history_str
    file_context : String) :
    (buildCrewTasks mode query current_time chat_history_str file_context).map
        (fun t => t.agent.role) =
      if mode = "reason" then
        ["Conceptual Analyst", "Practical Synthesizer", "Solution Architect"]
      else ["Expert Assistant"] := by
  unfold buildCrewTasks
  by_cases h : mode = "reason"
  · simp [h, reasonTasks, conceptual_analyst, practical_synthesizer,
      solution_architect]
  · simp [h, defaultTask, expert_assistant]

/-- Session resolution never touches the other tables. -/
theorem resolveSession_tables (db : DB) (user : User) (session_id : Option Nat)
    (query : String) (tS : Nat) (db1 : DB) (sid : Nat)
    (h : resolveSession db user session_id query tS = .ok (db1, sid)) :
    db1.users = db.users ∧ db1.messages = db.messages ∧ db1.files = db.files := by
  unfold resolveSession at h
  split at h
  · split at h
    · cases h
    · split at h
      · cases h
      · cases h
        exact ⟨rfl, rfl, rfl⟩
  · cases h
    exact ⟨rfl, rfl, rfl⟩

/-- Session resolution with `session_id = None`: inserts and commits exactly
one fresh session owned by the caller, titled with the first 50 characters of
the query. -/
theorem resolveSession_none (db : DB) (user : User) (query : String) (tS : Nat) :
    resolveSession db user none query tS =
      .ok ({db with sessions := db.sessions ++
              [⟨freshId (db.sessions.map (·.id)), user.id, pyTake query 50, tS⟩]},
           freshId (db.sessions.map (·.id))) := rfl

/-- Session resolution with an owned, non-zero session id (unique ids): keeps
the store unchanged and returns that id. -/
theorem resolveSession_owned (db : DB) (user : User) (sid : Nat) (query : String)
    (tS : Nat) (s : ChatSession) (hnd : (db.sessions.map (·.id)).Nodup)
    (hs : s ∈ db.sessions) (hid : s.id = sid) (hown : s.user_id = user.id)
    (hnz : sid ≠ 0) :
    resolveSession db user (some sid) query tS = .ok (db, sid) := by
  unfold resolveSession
  have htr : pyTruthy (some sid) = true := by
    simp [pyTruthy, hnz]
  rw [htr]
  simp only [if_pos rfl, Option.getD_some]
  rw [find?_eq_some_of_nodup (fun s => s.id) db.sessions hnd s hs sid hid]
  simp [hown, hid]

/-- The register endpoint touches only the user table. -/
theorem register_tables (db : DB) (username email password : String) (now : Nat) :
    (register db username email password now).1.sessions = db.sessions ∧
    (register db username email password now).1.messages = db.messages ∧
    (register db username email password now).1.files = db.files := by
  unfold register
  split <;> exact ⟨rfl, rfl, rfl⟩

/-- The upload endpoint touches only the file table. -/
theorem upload_file_tables (db : DB) (username password filename decoded
    pdfText : String) (now : Nat) :
    (upload_file db username password filename decoded pdfText now).1.users = db.users ∧
    (upload_file db username password filename decoded pdfText now).1.sessions = db.sessions ∧
    (upload_file db username password filename decoded pdfText now).1.messages = db.messages := by
  unfold upload_file
  split
  · exact ⟨rfl, rfl, rfl⟩
  · split
    · exact ⟨rfl, rfl, rfl⟩
    · split <;> exact ⟨rfl, rfl, rfl⟩

/-- Any row the upload endpoint adds to the file table has content that is not
entirely whitespace. -/
theorem upload_file_content (db : DB) (username password filename decoded
    pdfText : String) (now : Nat) (f : UserFiles)
    (hf : f ∈ (upload_file db username password filename decoded pdfText now).1.files) :
    f ∈ db.files ∨ ¬ ∀ c ∈ f.content.data, isPythonSpace c := by
  unfold upload_file at hf
  cases hauth : authenticate_user db username password with
  | none => simp only [hauth] at hf; exact Or.inl hf
  | some user =>
    simp only [hauth] at hf
    cases hext : extract_file_content filename decoded pdfText with
    | error e => simp only [hext] at hf; exact Or.inl hf
    | ok content =>
      simp only [hext] at hf
      by_cases hne : pyStrip content = ""
      · rw [if_pos hne] at hf
        exact Or.inl hf
      · rw [if_neg hne] at hf
        simp only [List.mem_append, List.mem_singleton] at hf
        rcases hf with hf | hfe
        · exact Or.inl hf
        · subst hfe
          right
          intro hall
          apply hne
          rw [pyStrip_eq_empty_iff]
          exact hall

/-- Full characterization of a successful chat call: it authenticates,
resolves the session, runs the crew to a trace, replies with the final
stage's output, and commits exactly the two turn rows in one step. -/
theorem chat_ok_shape (db : DB) (message : String) (session_id : Option Nat)
    (mode username password : String) (tS tN tU tA : Nat)
    (infer : List String → Task → Option String) (db' : DB) (r : ChatResult)
    (h : chat db message session_id mode username password tS tN tU tA infer
        = (db', .ok r)) :
    ∃ user db1 sid outs,
      authenticate_user db username password = some user ∧
      resolveSession db user session_id message tS = .ok (db1, sid) ∧
      crewKickoff infer (buildCrewTasks mode message (toString tN)
        (buildHistoryStr db1 sid) (assembleFileContext db1 user.id message))
        = some outs ∧
      r = ⟨(outs.map (·.2)).getLastD "", sid,
           [("user", message), ("assistant", (outs.map (·.2)).getLastD "")]⟩ ∧
      db' = {db1 with messages := db1.messages ++
        [⟨freshId (db1.messages.map (·.id)), sid, "user", message, tU⟩,
         ⟨freshId (db1.messages.map (·.id) ++ [freshId (db1.messages.map (·.id))]),
          sid, "assistant", (outs.map (·.2)).getLastD "", tA⟩]} := by
  unfold chat at h
  cases hauth : authenticate_user db username password with
  | none => simp only [hauth] at h; simp at h
  | some user =>
    simp only [hauth] at h
    cases hres : resolveSession db user session_id message tS with
    | error e => simp only [hres] at h; simp at h
    | ok p =>
      obtain ⟨db1, sid⟩ := p
      simp only [hres] at h
      cases hkick : crewKickoff infer (buildCrewTasks mode message (toString tN)
          (buildHistoryStr db1 sid) (assembleFileContext db1 user.id message)) with
      | none => simp only [hkick] at h; simp at h
      | some outs =>
        simp only [hkick, Prod.mk.injEq, Except.ok.injEq] at h
        exact ⟨user, db1, sid, outs, rfl, hres, hkick, h.2.symm, h.1.symm⟩

/-- A failed chat call leaves the message, user and file tables untouched.
-/
theorem chat_error_tables (db : DB) (message : String) (session_id : Option Nat)
    (mode username password : String) (tS tN tU tA : Nat)
    (infer : List String → Task → Option String) (db' : DB) (e : HErr)
    (h : chat db message session_id mode username password tS tN tU tA infer
        = (db', .error e)) :
    db'.messages = db.messages ∧ db'.users = db.users ∧ db'.files = db.files := by
  unfold chat at h
  cases hauth : authenticate_user db username password with
  | none =>
    simp only [hauth, Prod.mk.injEq] at h
    rw [← h.1]
    exact ⟨rfl, rfl, rfl⟩
  | some user =>
    simp only [hauth] at h
    cases hres : resolveSession db user session_id message tS with
    | error e2 =>
      simp only [hres, Prod.mk.injEq] at h
      rw [← h.1]
      exact ⟨rfl, rfl, rfl⟩
    | ok p =>
      obtain ⟨db1, sid⟩ := p
      simp only [hres] at h
      have htab := resolveSession_tables db user session_id message tS db1 sid hres
      cases hkick : crewKickoff infer (buildCrewTasks mode message (toString tN)
          (buildHistoryStr db1 sid) (assembleFileContext db1 user.id message)) with
      | none =>
        simp only [hkick, Prod.mk.injEq] at h
        rw [← h.1]
        exact ⟨htab.2.1, htab.1, htab.2.2⟩
      | some outs =>
        simp only [hkick, Prod.mk.injEq] at h
        exact absurd h.2 (by simp)

/-- Chat error paths leave the message log untouched; the success path appends
exactly the user turn and the assistant turn, in one commit. -/
theorem chat_messages_shape (db : DB) (message : String)
    (session_id : Option Nat) (mode username password : String)
    (tS tN tU tA : Nat) (infer : List String → Task → Option String) :
    (chat db message session_id mode username password tS tN tU tA infer).1.messages
        = db.messages ∨
      ∃ sid response,
        (chat db message session_id mode username password tS tN tU tA
            infer).1.messages = db.messages ++
          [⟨freshId (db.messages.map (·.id)), sid, "user", message, tU⟩,
           ⟨freshId (db.messages.map (·.id) ++ [freshId (db.messages.map (·.id))]),
            sid, "assistant", response, tA⟩] := by
  cases hout : (chat db message session_id mode username password tS tN tU tA
      infer).2 with
  | error e =>
    have h : chat db message session_id mode username password tS tN tU tA infer
        = ((chat db message session_id mode username password tS tN tU tA
            infer).1, .error e) := by
      rw [← hout]
    exact Or.inl (chat_error_tables db message session_id mode username password
      tS tN tU tA infer _ e h).1
  | ok r =>
    have h : chat db message session_id mode username password tS tN tU tA infer
        = ((chat db message session_id mode username password tS tN tU tA
            infer).1, .ok r) := by
      rw [← hout]
    obtain ⟨user, db1, sid, outs, hauth, hres, hkick, hr, hdb⟩ :=
      chat_ok_shape db message session_id mode username password tS tN tU tA
        infer _ r h
    have htab := resolveSession_tables db user session_id message tS db1 sid hres
    right
    refine ⟨sid, (outs.map (·.2)).getLastD "", ?_⟩
    rw [hdb]
    show db1.messages ++ _ = db.messages ++ _
    rw [htab.2.1]

/-! ### Concrete fixtures used by the witnesses -/

/-- A store holding one registered account ("alice" / password "p1"). -/
def dbW : DB := ⟨[⟨1, "alice", "a@x", "p1", 0⟩], [], [], []⟩

/-- An inference oracle that answers "ok" at every stage. -/
def inferW : List String → Task → Option String := fun _ _ => some "ok"

/-- An inference oracle that fails at every stage. -/
def inferFail : List String → Task → Option String := fun _ _ => none

/-- The store after a successful reason-mode chat "hi" on `dbW`. -/
def dbW3 : DB :=
  ⟨[⟨1, "alice", "a@x", "p1", 0⟩], [⟨1, 1, "hi", 1⟩],
   [⟨1, 1, "user", "hi", 3⟩, ⟨2, 1, "assistant", "ok", 4⟩], []⟩

/-- The reply of that chat call. -/
def rW3 : ChatResult := ⟨"ok", 1, [("user", "hi"), ("assistant", "ok")]⟩

/-! ### Claims -/

/-- C1: for every chat call, when mode is "default" the pipeline builds and
executes exactly one stage ("Expert Assistant") and its output is the reply;
when mode is "reason" it builds and executes exactly three stages, in the
fixed sequential order Conceptual Analyst, then Practical Synthesizer, then
Solution Architect, and the final stage's output is the reply. -/
theorem C1_agent_pipeline (db : DB) (message : String) (session_id : Option Nat)
    (mode username password : String) (tS tN tU tA : Nat)
    (infer : List String → Task → Option String) (db' : DB) (r : ChatResult)
    (hmode : mode = "default" ∨ mode = "reason")
    (h : chat db message session_id mode username password tS tN tU tA infer
        = (db', .ok r)) :
    ∃ user db1 sid outs,
      authenticate_user db username password = some user ∧
      resolveSession db user session_id message tS = .ok (db1, sid) ∧
      crewKickoff infer (buildCrewTasks mode message (toString tN)
        (buildHistoryStr db1 sid) (assembleFileContext db1 user.id message))
        = some outs ∧
      outs.map (·.1) =
        (if mode = "reason" then
          ["Conceptual Analyst", "Practical Synthesizer", "Solution Architect"]
         else ["Expert Assistant"]) ∧
      outs ≠ [] ∧
      r.response = (outs.map (·.2)).getLastD "" := by
  obtain ⟨user, db1, sid, outs, hauth, hres, hkick, hr, hdb⟩ :=
    chat_ok_shape db message session_id mode username password tS tN tU tA
      infer db' r h
  have hroles : outs.map (·.1) =
      (buildCrewTasks mode message (toString tN) (buildHistoryStr db1 sid)
        (assembleFileContext db1 user.id message)).map (fun t => t.agent.role) :=
    crewKickoff_roles infer _ outs hkick
  rw [buildCrewTasks_roles] at hroles
  refine ⟨user, db1, sid, outs, hauth, hres, hkick, hroles, ?_, by rw [hr]⟩
  intro hnil
  rw [hnil] at hroles
  by_cases hm : mode = "reason" <;> simp [hm] at hroles

/-- C1 witness: a concrete reason-mode call on a one-user store with an
all-"ok" oracle runs the three stages in order and replies "ok". -/
theorem C1_agent_pipeline_witness :
    ∃ user db1 sid outs,
      authenticate_user dbW "alice" "p1" = some user ∧
      resolveSession dbW user none "hi" 1 = .ok (db1, sid) ∧
      crewKickoff inferW (buildCrewTasks "reason" "hi" (toString 2)
        (buildHistoryStr db1 sid) (assembleFileContext db1 user.id "hi"))
        = some outs ∧
      outs.map (·.1) =
        (if "reason" = "reason" then
          ["Conceptual Analyst", "Practical Synthesizer", "Solution Architect"]
         else ["Expert Assistant"]) ∧
      outs ≠ [] ∧
      rW3.response = (outs.map (·.2)).getLastD "" :=
  C1_agent_pipeline dbW "hi" none "reason" "alice" "p1" 1 2 3 4 inferW dbW3 rW3
    (Or.inr rfl) (by rfl)

/-- C5: authentication returns the stored account iff the claimed name and
credential both match exactly (case-sensitive string equality); any other
pair yields the not-authenticated signal.  The function is pure, so there are
no side effects. -/
theorem C5_authentication (db : DB)
    (hnd : (db.users.map (·.username)).Nodup) (name cred : String) (u : User) :
    authenticate_user db name cred = some u ↔
      u ∈ db.users ∧ u.username = name ∧ u.hashed_password = cred := by
  constructor
  · intro h
    unfold authenticate_user at h
    cases hfind : db.users.find? (fun x => x.username == name) with
    | none => rw [hfind] at h; cases h
    | some v =>
      simp only [hfind] at h
      by_cases hpass : (v.hashed_password != cred) = true
      · rw [if_pos hpass] at h
        cases h
      · rw [if_neg hpass] at h
        cases h
        refine ⟨List.mem_of_find?_eq_some hfind, ?_, ?_⟩
        · have := List.find?_some hfind
          simpa using this
        · simpa using hpass
  · rintro ⟨hmem, hname, hpass⟩
    unfold authenticate_user
    rw [find?_eq_some_of_nodup (fun x => x.username) db.users hnd u hmem name hname]
    simp [hpass]

/-- C5 witness: on the one-user store, the exact pair succeeds and the iff is
inhabited at a concrete account. -/
theorem C5_authentication_witness :
    authenticate_user dbW "alice" "p1" = some ⟨1, "alice", "a@x", "p1", 0⟩ ↔
      (⟨1, "alice", "a@x", "p1", 0⟩ : User) ∈ dbW.users ∧
        ("alice" : String) = "alice" ∧ ("p1" : String) = "p1" :=
  C5_authentication dbW (by decide) "alice" "p1" ⟨1, "alice", "a@x", "p1", 0⟩

/-- C7: registering a username that is already stored (case-sensitively)
fails with HTTP 400 and leaves the store unchanged; a fresh username is
inserted and the username and email are returned. -/
theorem C7_register_unique (db : DB) (username email password : String)
    (now : Nat) :
    ((∃ u ∈ db.users, u.username = username) →
      register db username email password now =
        (db, .error ⟨400, "Username already registered"⟩)) ∧
    ((¬ ∃ u ∈ db.users, u.username = username) →
      register db username email password now =
        ({db with users := db.users ++
            [⟨freshId (db.users.map (·.id)), username, email, password, now⟩]},
         .ok ⟨username, email⟩)) := by
  constructor
  · rintro ⟨u, hu, hname⟩
    unfold register
    cases hfind : db.users.find? (fun x => x.username == username) with
    | none =>
      exfalso
      have := List.find?_eq_none.1 hfind u hu
      simp [hname] at this
    | some v => rfl
  · intro h2
    unfold register
    cases hfind : db.users.find? (fun x => x.username == username) with
    | some v =>
      exfalso
      apply h2
      exact ⟨v, List.mem_of_find?_eq_some hfind, by simpa using List.find?_some hfind⟩
    | none => rfl

/-- C7 witness: on the one-user store, re-registering "alice" fails with 400
and the store is unchanged, while registering "bob" succeeds. -/
theorem C7_register_unique_witness :
    register dbW "alice" "b@x" "p2" 5 =
      (dbW, .error ⟨400, "Username already registered"⟩) ∧
    register dbW "bob" "b@x" "p2" 5 =
      ({dbW with users := dbW.users ++ [⟨2, "bob", "b@x", "p2", 5⟩]},
       .ok ⟨"bob", "b@x"⟩) :=
  ⟨(C7_register_unique dbW "alice" "b@x" "p2" 5).1
      ⟨⟨1, "alice", "a@x", "p1", 0⟩, by decide, rfl⟩,
   (C7_register_unique dbW "bob" "b@x" "p2" 5).2 (by decide)⟩

/-- A one-user store with one uploaded document "hello world". -/
def dbC2 : DB :=
  ⟨[⟨1, "alice", "a@x", "p1", 0⟩], [], [],
   [⟨1, 1, "notes.txt", "hello world", 5⟩]⟩

/-- C2 counterexample: with a document present and the non-file-related query
"what is 2+2", the file context is the code's sentinel
"No relevant file content available.", which is not the string
"no relevant file content" the claim names. -/
theorem C2_counterexample :
    assembleFileContext dbC2 1 "what is 2+2" =
      "No relevant file content available." ∧
    "No relevant file content available." ≠ "no relevant file content" :=
  ⟨rfl, by decide⟩

/-- C2 (amended): with the keyword heuristic matching, the file context is the
content of the account's single most recently uploaded document; with no
keyword match, or with no uploaded document at all, it is the sentinel string
"No relevant file content available." (not "no relevant file content").  The
hypothesis that stored contents are non-empty holds in every reachable store
(uploads reject whitespace-only content). -/
theorem C2_file_context (db : DB) (uid : Nat) (query : String)
    (hc : ∀ f ∈ db.files, f.content ≠ "") :
    (is_file_relevant query = true →
      db.files.filter (fun f => f.user_id == uid) ≠ [] →
      ∃ f, latestFile db uid = some f ∧ f ∈ db.files ∧ f.user_id = uid ∧
        (∀ g ∈ db.files, g.user_id = uid → g.uploaded_at ≤ f.uploaded_at) ∧
        assembleFileContext db uid query = f.content) ∧
    (is_file_relevant query = false →
      assembleFileContext db uid query = "No relevant file content available.") ∧
    (db.files.filter (fun f => f.user_id == uid) = [] →
      assembleFileContext db uid query = "No relevant file content available.") := by
  refine ⟨?_, ?_, ?_⟩
  · intro hrel hne
    obtain ⟨f, hlf, hmem, hfuid, hmax⟩ := latestFile_spec db uid hne
    refine ⟨f, hlf, hmem, hfuid, hmax, ?_⟩
    unfold assembleFileContext
    simp only [hlf, hrel, if_true]
    have hcf : (f.content == "") = false := by
      simp [hc f hmem]
    simp [hcf]
  · intro hrel
    unfold assembleFileContext
    cases hlf : latestFile db uid <;> simp [hlf, hrel]
  · intro hempty
    unfold assembleFileContext
    have hlf : latestFile db uid = none := by
      unfold latestFile
      rw [hempty]
      rfl
    simp [hlf]

/-- C2 witness: on the one-document store, the query "summarize" selects the
document content "hello world" as file context. -/
theorem C2_file_context_witness :
    ∃ f, latestFile dbC2 1 = some f ∧ f ∈ dbC2.files ∧ f.user_id = 1 ∧
      (∀ g ∈ dbC2.files, g.user_id = 1 → g.uploaded_at ≤ f.uploaded_at) ∧
      assembleFileContext dbC2 1 "summarize" = f.content :=
  (C2_file_context dbC2 1 "summarize" (by decide)).1 (by decide) (by decide)

/-- C3 counterexample: both turn rows are stamped with separate clock
readings, so when the two readings coincide (here both 5) the persisted
user/assistant pair has equal, not strictly increasing, timestamps. -/
theorem C3_counterexample :
    ((chat dbW "hi" none "default" "alice" "p1" 1 2 5 5 inferW).1.messages.map
        (fun m => (m.role, m.timestamp))) = [("user", 5), ("assistant", 5)] ∧
    ¬ List.Chain' (fun a b : Nat => a < b)
        ((chat dbW "hi" none "default" "alice" "p1" 1 2 5 5 inferW).1.messages.map
          (fun m => m.timestamp)) := by
  constructor
  · rfl
  · intro hch
    have hts : ((chat dbW "hi" none "default" "alice" "p1" 1 2 5 5
        inferW).1.messages.map (fun m => m.timestamp)) = [5, 5] := rfl
    rw [hts] at hch
    simp [List.chain'_cons] at hch

/-- C3 (amended): every successful chat call appends exactly two turn rows in
one commit — first the user turn holding the query, then the assistant turn
holding the reply, both tagged with the reply's session — and, as the two
clock readings are taken in order, the user turn's timestamp is less than or
equal to (not strictly less than) the assistant turn's. -/
theorem C3_turn_recording (db : DB) (message : String) (session_id : Option Nat)
    (mode username password : String) (tS tN tU tA : Nat)
    (infer : List String → Task → Option String) (db' : DB) (r : ChatResult)
    (h : chat db message session_id mode username password tS tN tU tA infer
        = (db', .ok r))
    (hts : tU ≤ tA) :
    ∃ u a, db'.messages = db.messages ++ [u, a] ∧
      u.role = "user" ∧ u.content = message ∧ u.timestamp = tU ∧
      u.session_id = r.session_id ∧
      a.role = "assistant" ∧ a.content = r.response ∧ a.timestamp = tA ∧
      a.session_id = r.session_id ∧
      u.timestamp ≤ a.timestamp := by
  obtain ⟨user, db1, sid, outs, hauth, hres, hkick, hr, hdb⟩ :=
    chat_ok_shape db message session_id mode username password tS tN tU tA
      infer db' r h
  have htab := resolveSession_tables db user session_id message tS db1 sid hres
  refine ⟨⟨freshId (db1.messages.map (·.id)), sid, "user", message, tU⟩,
    ⟨freshId (db1.messages.map (·.id) ++ [freshId (db1.messages.map (·.id))]),
     sid, "assistant", (outs.map (·.2)).getLastD "", tA⟩,
    ?_, rfl, rfl, rfl, by rw [hr], rfl, by rw [hr], rfl, by rw [hr], hts⟩
  rw [hdb]
  show db1.messages ++ _ = db.messages ++ _
  rw [htab.2.1]

/-- C3 witness: the concrete default-mode call with clock readings 3 then 4
appends the user turn at 3 and the assistant turn at 4. -/
theorem C3_turn_recording_witness :
    ∃ u a, dbW3.messages = dbW.messages ++ [u, a] ∧
      u.role = "user" ∧ u.content = "hi" ∧ u.timestamp = 3 ∧
      u.session_id = rW3.session_id ∧
      a.role = "assistant" ∧ a.content = rW3.response ∧ a.timestamp = 4 ∧
      a.session_id = rW3.session_id ∧
      u.timestamp ≤ a.timestamp :=
  C3_turn_recording dbW "hi" none "default" "alice" "p1" 1 2 3 4 inferW dbW3 rW3
    (by rfl) (by decide)

/-- C4: a chat call without a session id creates exactly one new conversation
owned by the caller and titled with the first 50 characters of the query; a
chat call with an owned session id creates none and appends its turns to that
conversation.  (Session ids are non-zero and unique in reachable stores:
`freshId` starts at 1 and never repeats.) -/
theorem C4_conversation_creation (db : DB) (message mode username password : String)
    (tS tN tU tA : Nat) (infer : List String → Task → Option String)
    (user : User)
    (hauth : authenticate_user db username password = some user) :
    ((chat db message none mode username password tS tN tU tA infer).1.sessions
        = db.sessions ++
          [⟨freshId (db.sessions.map (·.id)), user.id, pyTake message 50, tS⟩]) ∧
    (∀ sid s, (db.sessions.map (·.id)).Nodup → s ∈ db.sessions → s.id = sid →
      s.user_id = user.id → sid ≠ 0 →
      ((chat db message (some sid) mode username password tS tN tU tA
          infer).1.sessions = db.sessions ∧
       ∀ m ∈ (chat db message (some sid) mode username password tS tN tU tA
          infer).1.messages, m ∈ db.messages ∨ m.session_id = sid)) := by
  constructor
  · unfold chat
    simp only [hauth, resolveSession_none]
    split
    · rfl
    · rfl
  · intro sid s hnd hs hid hown hnz
    have hres := resolveSession_owned db user sid message tS s hnd hs hid hown hnz
    constructor
    · unfold chat
      simp only [hauth, hres]
      split
      · rfl
      · rfl
    · intro m hm
      unfold chat at hm
      simp only [hauth, hres] at hm
      split at hm
      · exact Or.inl hm
      · rcases List.mem_append.1 hm with hm | hm
        · exact Or.inl hm
        · right
          rcases List.mem_cons.1 hm with rfl | hm
          · rfl
          · rcases List.mem_cons.1 hm with rfl | hm
            · rfl
            · cases hm

/-- A one-user store holding one conversation (id 1) owned by that user. -/
def dbS : DB := ⟨[⟨1, "alice", "a@x", "p1", 0⟩], [⟨1, 1, "hello", 0⟩], [], []⟩

/-- C4 witness: on `dbW` the call without a session id creates conversation
⟨1, 1, "hi", 1⟩; on `dbS` the call with owned session id 1 creates none. -/
theorem C4_conversation_creation_witness :
    ((chat dbW "hi" none "default" "alice" "p1" 1 2 3 4 inferW).1.sessions
        = dbW.sessions ++ [⟨1, 1, "hi", 1⟩]) ∧
    ((chat dbS "again" (some 1) "default" "alice" "p1" 9 9 9 9
        inferW).1.sessions = dbS.sessions ∧
     ∀ m ∈ (chat dbS "again" (some 1) "default" "alice" "p1" 9 9 9 9
        inferW).1.messages, m ∈ dbS.messages ∨ m.session_id = 1) :=
  ⟨(C4_conversation_creation dbW "hi" "default" "alice" "p1" 1 2 3 4 inferW
      ⟨1, "alice", "a@x", "p1", 0⟩ rfl).1,
   (C4_conversation_creation dbS "again" "default" "alice" "p1" 9 9 9 9 inferW
      ⟨1, "alice", "a@x", "p1", 0⟩ rfl).2 1 ⟨1, 1, "hello", 0⟩ (by decide)
      (by decide) rfl rfl (by decide)⟩

/-- C9: a chat call without a session id commits the new conversation before
any inference runs; when the pipeline then fails, the call surfaces the 500
error with that conversation already persisted and no turn rows referencing
it — conversation creation is not atomic with the rest of the call. -/
theorem C9_session_commit_before_pipeline (db : DB)
    (message mode username password : String) (tS tN tU tA : Nat)
    (infer : List String → Task → Option String) (user : User)
    (hauth : authenticate_user db username password = some user)
    (hfail : crewKickoff infer (buildCrewTasks mode message (toString tN)
      (buildHistoryStr {db with sessions := db.sessions ++
          [⟨freshId (db.sessions.map (·.id)), user.id, pyTake message 50, tS⟩]}
        (freshId (db.sessions.map (·.id))))
      (assembleFileContext {db with sessions := db.sessions ++
          [⟨freshId (db.sessions.map (·.id)), user.id, pyTake message 50, tS⟩]}
        user.id message)) = none)
    (hri : ∀ m ∈ db.messages, ∃ t ∈ db.sessions, t.id = m.session_id) :
    chat db message none mode username password tS tN tU tA infer =
      ({db with sessions := db.sessions ++
          [⟨freshId (db.sessions.map (·.id)), user.id, pyTake message 50, tS⟩]},
       .error ⟨500, "Internal Server Error"⟩) ∧
    db.messages.filter (fun m => m.session_id ==
        freshId (db.sessions.map (·.id))) = [] := by
  constructor
  · unfold chat
    simp only [hauth, resolveSession_none]
    rw [hfail]
  · rw [List.filter_eq_nil_iff]
    intro m hm
    obtain ⟨t, ht, htid⟩ := hri m hm
    simp only [beq_iff_eq]
    intro hfr
    apply freshId_not_mem (db.sessions.map (·.id))
    rw [← hfr, ← htid]
    exact List.mem_map_of_mem (·.id) ht

/-- C9 witness: on the one-user store with an always-failing oracle, the chat
call returns the 500 outcome with conversation ⟨1, 1, "hi", 1⟩ persisted and
no turns. -/
theorem C9_session_commit_before_pipeline_witness :
    chat dbW "hi" none "default" "alice" "p1" 1 2 3 4 inferFail =
      ({dbW with sessions := dbW.sessions ++ [⟨1, 1, "hi", 1⟩]},
       .error ⟨500, "Internal Server Error"⟩) ∧
    dbW.messages.filter (fun m => m.session_id == 1) = [] :=
  C9_session_commit_before_pipeline dbW "hi" "default" "alice" "p1" 1 2 3 4
    inferFail ⟨1, "alice", "a@x", "p1", 0⟩ rfl rfl (by decide)

/-- C6: `GET /session/{session_id}` returns 404 when the session does not
exist or is owned by a different account, and returns message content only
for a session owned by the requesting account — and then only that session's
own messages. -/
theorem C6_session_privacy (db : DB) (sid : Nat) (username password : String)
    (user : User)
    (hauth : authenticate_user db username password = some user) :
    (db.sessions.find? (fun s => s.id == sid) = none →
      get_session_messages db sid username password =
        .error ⟨404, "Session not found"⟩) ∧
    (∀ s, db.sessions.find? (fun s => s.id == sid) = some s →
      s.user_id ≠ user.id →
      get_session_messages db sid username password =
        .error ⟨404, "Session not found"⟩) ∧
    (∀ l, get_session_messages db sid username password = .ok l →
      ∃ s, db.sessions.find? (fun s => s.id == sid) = some s ∧
        s.user_id = user.id ∧
        l = (sortByTs (db.messages.filter (fun m => m.session_id == sid))).map
            (fun m => (m.role, m.content, m.timestamp)) ∧
        ∀ x ∈ l, ∃ m ∈ db.messages, m.session_id = sid ∧
          x = (m.role, m.content, m.timestamp)) := by
  refine ⟨?_, ?_, ?_⟩
  · intro hfind
    unfold get_session_messages
    simp only [hauth, hfind]
  · intro s hfind hdiff
    unfold get_session_messages
    simp only [hauth, hfind]
    have hne : (s.user_id != user.id) = true := by simpa using hdiff
    rw [if_pos hne]
  · intro l hl
    unfold get_session_messages at hl
    simp only [hauth] at hl
    cases hfind : db.sessions.find? (fun s => s.id == sid) with
    | none =>
      simp only [hfind] at hl
      cases hl
    | some s =>
      simp only [hfind] at hl
      by_cases hdiff : (s.user_id != user.id) = true
      · rw [if_pos hdiff] at hl
        cases hl
      · rw [if_neg hdiff] at hl
        cases hl
        refine ⟨s, rfl, by simpa using hdiff, rfl, ?_⟩
        intro x hx
        obtain ⟨m, hmmem, hmx⟩ := List.mem_map.1 hx
        have hm2 : m ∈ db.messages.filter (fun m => m.session_id == sid) :=
          (mem_sortByTs _ m).1 hmmem
        have hm3 := List.mem_filter.1 hm2
        exact ⟨m, hm3.1, by simpa using hm3.2, hmx.symm⟩

/-- A two-user store where session 1 belongs to the second user ("bob") and
holds one of bob's messages. -/
def dbP : DB :=
  ⟨[⟨1, "alice", "a@x", "p1", 0⟩, ⟨2, "bob", "b@x", "p2", 0⟩],
   [⟨1, 2, "bobs chat", 0⟩], [⟨1, 1, "user", "bobs secret", 1⟩], []⟩

/-- C6 witness: alice requesting bob's session 1 gets 404; bob requesting his
own session 1 gets exactly its messages. -/
theorem C6_session_privacy_witness :
    get_session_messages dbP 1 "alice" "p1" =
      .error ⟨404, "Session not found"⟩ ∧
    ∃ s, dbP.sessions.find? (fun s => s.id == 1) = some s ∧
      s.user_id = (⟨2, "bob", "b@x", "p2", 0⟩ : User).id ∧
      [("user", "bobs secret", 1)] =
        (sortByTs (dbP.messages.filter (fun m => m.session_id == 1))).map
          (fun m => (m.role, m.content, m.timestamp)) ∧
      ∀ x ∈ [("user", "bobs secret", (1 : Nat))],
        ∃ m ∈ dbP.messages, m.session_id = 1 ∧
          x = (m.role, m.content, m.timestamp) :=
  ⟨(C6_session_privacy dbP 1 "alice" "p1" ⟨1, "alice", "a@x", "p1", 0⟩ rfl).2.1
      ⟨1, 2, "bobs chat", 0⟩ rfl (by decide),
   (C6_session_privacy dbP 1 "bob" "p2" ⟨2, "bob", "b@x", "p2", 0⟩ rfl).2.2
      [("user", "bobs secret", 1)] rfl⟩

/-- C8: uploading a `.txt` file whose decoded content is entirely whitespace
(or empty) fails with HTTP 400 and stores nothing; content with any
non-whitespace character is stored as a new document row. -/
theorem C8_upload_validation (db : DB)
    (username password filename decoded pdfText : String) (now : Nat)
    (user : User)
    (hauth : authenticate_user db username password = some user)
    (htxt : pyEndsWith filename ".txt" = true) :
    ((∀ c ∈ decoded.data, isPythonSpace c) →
      upload_file db username password filename decoded pdfText now =
        (db, .error ⟨400, "File content is empty"⟩)) ∧
    ((¬ ∀ c ∈ decoded.data, isPythonSpace c) →
      upload_file db username password filename decoded pdfText now =
        ({db with files := db.files ++
            [⟨freshId (db.files.map (·.id)), user.id, filename, decoded, now⟩]},
         .ok ⟨"File uploaded successfully", username, filename, now⟩)) := by
  have hext : extract_file_content filename decoded pdfText = .ok decoded := by
    unfold extract_file_content
    rw [if_pos htxt]
  constructor
  · intro hall
    unfold upload_file
    simp only [hauth, hext]
    rw [if_pos ((pyStrip_eq_empty_iff decoded).2 hall)]
  · intro hnw
    unfold upload_file
    simp only [hauth, hext]
    rw [if_neg (fun he => hnw ((pyStrip_eq_empty_iff decoded).1 he))]

/-- C8 witness: on the one-user store, uploading "   " as a.txt fails with
400 leaving the store unchanged, and uploading "hello" stores the row. -/
theorem C8_upload_validation_witness :
    upload_file dbW "alice" "p1" "a.txt" "   " "x" 7 =
      (dbW, .error ⟨400, "File content is empty"⟩) ∧
    upload_file dbW "alice" "p1" "a.txt" "hello" "x" 7 =
      ({dbW with files := dbW.files ++ [⟨1, 1, "a.txt", "hello", 7⟩]},
       .ok ⟨"File uploaded successfully", "alice", "a.txt", 7⟩) :=
  ⟨(C8_upload_validation dbW "alice" "p1" "a.txt" "   " "x" 7
      ⟨1, "alice", "a@x", "p1", 0⟩ rfl (by decide)).1 (by decide),
   (C8_upload_validation dbW "alice" "p1" "a.txt" "hello" "x" 7
      ⟨1, "alice", "a@x", "p1", 0⟩ rfl (by decide)).2 (by decide)⟩

/-- C10: in every reachable store state, every persisted turn row has role
"user" or "assistant"; no operation ever writes the "system" role the data
model would admit. -/
theorem C10_turn_roles (db : DB) (h : Reach db) :
    ∀ m ∈ db.messages, m.role = "user" ∨ m.role = "assistant" := by
  induction h with
  | init => intro m hm; cases hm
  | register db username email password now hr ih =>
    intro m hm
    rw [(register_tables db username email password now).2.1] at hm
    exact ih m hm
  | upload db username password filename decoded pdfText now hr ih =>
    intro m hm
    rw [(upload_file_tables db username password filename decoded pdfText
      now).2.2] at hm
    exact ih m hm
  | chat db message session_id mode username password tS tN tU tA infer hr ih =>
    intro m hm
    rcases chat_messages_shape db message session_id mode username password
        tS tN tU tA infer with hsame | ⟨sid, resp, happ⟩
    · rw [hsame] at hm
      exact ih m hm
    · rw [happ] at hm
      rcases List.mem_append.1 hm with hm | hm
      · exact ih m hm
      · rcases List.mem_cons.1 hm with rfl | hm
        · exact Or.inl rfl
        · rcases List.mem_cons.1 hm with rfl | hm
          · exact Or.inr rfl
          · cases hm

/-- The store produced by registering alice on the empty schema. -/
def dbReg : DB := (register emptyDB "alice" "a@x" "p1" 0).1

/-- The store after one successful default-mode chat on `dbReg`. -/
def dbChat : DB := (chat dbReg "hi" none "default" "alice" "p1" 1 2 3 4 inferW).1

/-- C10 witness: the reachable store after one register and one chat holds
exactly a user turn and an assistant turn, and the invariant applies to it. -/
theorem C10_turn_roles_witness :
    dbChat.messages.map (fun m => m.role) = ["user", "assistant"] ∧
    ∀ m ∈ dbChat.messages, m.role = "user" ∨ m.role = "assistant" :=
  ⟨rfl,
   C10_turn_roles dbChat
     (Reach.chat dbReg "hi" none "default" "alice" "p1" 1 2 3 4 inferW
       (Reach.register emptyDB "alice" "a@x" "p1" 0 Reach.init))⟩

end MAC
